import Mathlib

/-!
# Verification of the Product-Selector core logic

Shallow embedding of the core logic of `app/product_selector_app.py` and
`app/audit_data.py`: the range resolver (`find_cable_range_code`), the
per-family conductor-code lookups, the part-number joiner (`_hifen_join`),
the voltage normalizer (`_norm_voltage`) and the coverage auditor
(`run_audit`).

Modelling conventions:
* Python floats are modelled as `ℚ` (all comparisons and arithmetic in the
  source are order/field operations on finite decimal data).
* pandas tables are modelled as lists of records.  Column-name
  normalization (`_rename_like`) and `pd.to_numeric` are ingestion glue:
  tables are modelled post-normalization, with `Option` fields standing
  for possibly-missing (NaN) cells, and `dropna` modelled explicitly.
* A Python `dict` of tables is an association list `List (String × _)`;
  `key in db` is `(db.lookup key).isSome`.
* Exceptions (the `ZeroDivisionError` reachable in `run_audit`) are
  modelled by an `Option` result, `none` standing for the raised error.
-/

/- `Rat.add` and friends are `@[irreducible]` in the library, which blocks
`decide` on concrete rational computations; they are sound to unfold. -/
unseal Rat.mul Rat.inv Rat.add Rat.sub

/-- Python's substring test `pat in s` on character lists. -/
def containsSub : List Char → List Char → Bool
  | s, pat =>
    pat.isPrefixOf s ||
      match s with
      | [] => false
      | _ :: t => containsSub t pat

/-- Python's `pat in s` on strings. -/
def strContains (s pat : String) : Bool :=
  containsSub s.data pat.data

/-- Python's `str.upper()` (ASCII data in this code base). -/
def pyUpper (s : String) : String :=
  String.mk (s.data.map Char.toUpper)

/-- Python's `str.strip("-")`: remove leading and trailing hyphens. -/
def stripHyphens (s : String) : String :=
  String.mk (((s.data.dropWhile (· == '-')).reverse.dropWhile (· == '-')).reverse)

/-- Python's `str.strip()`: remove leading and trailing whitespace. -/
def stripWs (s : String) : String :=
  String.mk (((s.data.dropWhile Char.isWhitespace).reverse.dropWhile Char.isWhitespace).reverse)

/-- Little-endian decimal digits of `n`; the first argument is structural
fuel (`n` itself suffices since `n / 10 < n` for `n ≠ 0`). -/
def decDigitsAux : Nat → Nat → List Nat
  | 0, _ => []
  | fuel + 1, n => if n = 0 then [] else n % 10 :: decDigitsAux fuel (n / 10)

/-- Python's `str(n)` for a natural number: its decimal rendering. -/
def natRepr (n : Nat) : String :=
  if n = 0 then "0"
  else String.mk ((decDigitsAux n n).reverse.map (fun d => Char.ofNat (48 + d)))

/-- Python's `str.zfill(width)` on an unsigned digit string: left-pad with
zeros up to `width` (the sign handling of `zfill` is irrelevant here, the
catalog codes rendered through it are naturals). -/
def zfill (width : Nat) (s : String) : String :=
  if width ≤ s.length then s
  else String.mk (List.replicate (width - s.length) '0') ++ s

/-- `audit_data._norm_voltage`: substring rules tried in order. -/
def _norm_voltage (v : String) : String :=
  if strContains v "15" then "15 kV"
  else if strContains v "25" || strContains v "24" || strContains v "20" then "25 kV"
  else if strContains v "35" then "35 kV"
  else v

/-! ## Range resolver (`product_selector_app.find_cable_range_code`)

A range table is modelled after schema normalization: each row carries the
canonical `min_mm` / `max_mm` bounds and the `codigo_retorno` code, any of
which may be missing (NaN in the CSV), and the source's
`dropna(subset=[min, max, codigo_retorno])` is modelled explicitly.  The
claims all concern diameter-based tables, so the alternative
`min_mm2`/`max_mm2` cross-section schema branch of the source (taken only
when a table has no diameter columns) is outside the modelled fragment. -/

structure RangeRow where
  min_mm : Option ℚ
  max_mm : Option ℚ
  codigo_retorno : Option String
deriving DecidableEq

/-- `min_val <= comparison_value <= max_val` for a row with both bounds. -/
def rowMatches (x : ℚ) (r : RangeRow) : Bool :=
  match r.min_mm, r.max_mm with
  | some a, some b => decide (a ≤ x) && decide (x ≤ b)
  | _, _ => false

/-- `df_range.dropna(subset=[min_col, max_col, "codigo_retorno"])`. -/
def dropna (rows : List RangeRow) : List RangeRow :=
  rows.filter (fun r => r.min_mm.isSome && r.max_mm.isSome && r.codigo_retorno.isSome)

/-- The row scan of `find_cable_range_code`: first row (in table order)
whose interval contains the measurement wins; `"N/A"` when none does. -/
def scanTable (rows : List RangeRow) (x : ℚ) : String :=
  match (dropna rows).find? (rowMatches x) with
  | some r => stripWs (r.codigo_retorno.getD "")
  | none => "N/A"

/-- The source's `alias_redirects` dict: 15 kV / 600 A uses 25 kV / 600 A. -/
def alias_redirects_lookup (tn : String) : Option String :=
  if tn == "opcoes_range_cabo_15kv_600a" then some "opcoes_range_cabo_25kv_600a"
  else none

/-- The source's `alternative_candidates` dict (IEC table spellings). -/
def alternative_candidates (tn : String) : List String :=
  if tn == "opcoes_range_cabo_iec_36kv_400a" then
    ["options_range_cable_iec_36kv_400a",
     "option_range_cable_iec_36kv_400a",
     "options_range_cable_iec_36kV_400A",
     "option_range_cable_iec_36kV_400A"]
  else []

/-- `product_selector_app.find_cable_range_code` (diameter tables): resolve
the table name (default name from voltage/current, alias redirect,
alternative spellings), then scan it; `"ERR"` when the table is absent. -/
def find_cable_range_code (diameter : ℚ) (voltage current : Nat)
    (db : List (String × List RangeRow)) (table_basename : Option String) : String :=
  let tn0 :=
    match table_basename with
    | some t => t
    | none =>
      if 600 ≤ current then "opcoes_range_cabo_" ++ toString voltage ++ "kv_600a"
      else "opcoes_range_cabo_" ++ toString voltage ++ "kv"
  let tn1 :=
    if (db.lookup tn0).isNone then
      match alias_redirects_lookup tn0 with
      | some redirected => if (db.lookup redirected).isSome then redirected else tn0
      | none => tn0
    else tn0
  let tn2 :=
    if (db.lookup tn1).isNone then
      match (alternative_candidates tn1).find? (fun alt => (db.lookup alt).isSome) with
      | some alt => alt
      | none => tn1
    else tn1
  match db.lookup tn2 with
  | none => "ERR"
  | some rows => scanTable rows diameter

/-! ## Conductor-code lookups (200 A / 600 A families)

`opcoes_condutores_v1` / `opcoes_condutores_600a_v1` rows; the catalog
code `codigo_retorno` is rendered through `str(int(...))`, modelled as a
natural (the catalog codes are non-negative integers). -/

structure CondRow where
  tipo_condutor : String
  secao_mm2 : Int
  codigo_retorno : Nat
deriving DecidableEq

/-- `product_selector_app.find_conductor_code_200a`; the table argument is
`none` when `opcoes_condutores_v1` is missing from the database. -/
def find_conductor_code_200a (cond_type : String) (cond_size : Int)
    (table : Option (List CondRow)) : String :=
  match table with
  | none => "ER"
  | some rows =>
    match rows.find? (fun r => r.tipo_condutor == cond_type && r.secao_mm2 == cond_size) with
    | none => "NA"
    | some r => zfill 2 (natRepr r.codigo_retorno)

/-- `product_selector_app.find_compression_lug_600a`. -/
def find_compression_lug_600a (cond_type : String) (cond_size : Int)
    (table : Option (List CondRow)) : String :=
  match table with
  | none => "ER"
  | some rows =>
    match rows.find? (fun r => r.tipo_condutor == cond_type && r.secao_mm2 == cond_size) with
    | none => "NA"
    | some r => zfill 4 (natRepr r.codigo_retorno)

/-! ## Part-number joiner (`product_selector_app._hifen_join`) -/

/-- The sentinel / error markers of the source. -/
def sentinels : List String := ["NA", "N/A", "ER", "ERR"]

/-- `_hifen_join(*parts)`: keep the parts that are non-empty and whose
uppercase text is not a sentinel, strip hyphens off each kept part, and
join with `"-"`. -/
def _hifen_join (parts : List String) : String :=
  String.intercalate "-"
    ((parts.filter (fun p => !(p == "") && !(sentinels.contains (pyUpper p)))).map stripHyphens)

/-! ## Coverage auditor (`audit_data.run_audit`)

The cable database (`bitola_to_od.csv`) and the termination table
(`csto_selection_table.csv`) are modelled post-load, with the columns the
auditor reads.  `df.groupby` is modelled by the list of distinct
`(Cable Voltage, S_mm2)` keys with, for each key, the sub-list of rows
carrying it; pandas iterates groups in sorted key order while the model
uses first-appearance order, which only permutes whole groups in the
findings list and is not relied on by any statement below (all statements
are about one group's findings or about membership). -/

structure CableRow where
  voltage : String
  s_mm2 : ℚ
  brand : String
  cable : String
  od_iso : ℚ
deriving DecidableEq

structure TermRow where
  voltage_class : String
  part_number : String
  od_min : ℚ
  od_max : ℚ
deriving DecidableEq

structure Finding where
  voltage : String
  s_mm2 : ℚ
  brand : String
  cable : String
  reason : String
deriving DecidableEq

/-- Insertion into a sorted list of rationals. -/
def insertQ (x : ℚ) : List ℚ → List ℚ
  | [] => [x]
  | y :: t => if x ≤ y then x :: y :: t else y :: insertQ x t

/-- Insertion sort on rationals (used only to define the median). -/
def sortQ : List ℚ → List ℚ
  | [] => []
  | x :: t => insertQ x (sortQ t)

/-- `pandas.Series.median`: middle of the sorted values for odd length,
mean of the two middle values for even length.  The auditor only takes
medians of non-empty groups, so the empty case (NaN in pandas) is
arbitrary here. -/
def median (l : List ℚ) : ℚ :=
  let s := sortQ l
  let n := s.length
  if n = 0 then 0
  else if n % 2 = 1 then s.getD (n / 2) 0
  else (s.getD (n / 2 - 1) 0 + s.getD (n / 2) 0) / 2

/-- The termination filter of `run_audit`: same (normalized) voltage class
and OD window containing the group median. -/
def matchingTerms (terms : List TermRow) (v_norm : String) (od_med : ℚ) : List TermRow :=
  terms.filter (fun t =>
    t.voltage_class == v_norm && decide (t.od_min ≤ od_med) && decide (od_med ≤ t.od_max))

/-- `OD Max (mm) - OD Min (mm)`. -/
def spanOf (t : TermRow) : ℚ := t.od_max - t.od_min

/-- `pecas.sort_values(span).iloc[0]`: a row of minimal span (the first
such row here; the source's sort leaves the order of equal spans
unspecified, and no claim depends on it).  `none` iff the list is empty
(the source's `pecas.empty` test). -/
def minSpanChoice : List TermRow → Option TermRow
  | [] => none
  | t :: ts => some (ts.foldl (fun best u => if spanOf u < spanOf best then u else best) t)

/-- The termination `run_audit` selects for a group: normalize the group's
voltage, filter by window around the group's median OD, take minimal span. -/
def chosenTermination (terms : List TermRow) (voltagem : String)
    (grupo : List CableRow) : Option TermRow :=
  minSpanChoice (matchingTerms terms (_norm_voltage voltagem) (median (grupo.map (·.od_iso))))

/-- One iteration of the group loop of `run_audit`: the findings a single
`(voltage, cross-section)` group contributes. -/
def auditGroup (terms : List TermRow) (voltagem : String) (bitola : ℚ)
    (grupo : List CableRow) : List Finding :=
  match chosenTermination terms voltagem grupo with
  | none =>
    grupo.map (fun c => ⟨voltagem, bitola, c.brand, c.cable, "No Termination Found"⟩)
  | some t =>
    grupo.filterMap (fun c =>
      if t.od_min ≤ c.od_iso ∧ c.od_iso ≤ t.od_max then none
      else some ⟨voltagem, bitola, c.brand, c.cable,
        if c.od_iso < t.od_min then "Too Thin" else "Too Thick"⟩)

/-- Distinct elements of a list, first occurrences first. -/
def dedupFirstAux : List (String × ℚ) → List (String × ℚ) → List (String × ℚ)
  | [], _ => []
  | a :: t, seen => if a ∈ seen then dedupFirstAux t seen else a :: dedupFirstAux t (a :: seen)

/-- The group keys of `df_cabos.groupby([Cable Voltage, S_mm2])`. -/
def groupKeys (cables : List CableRow) : List (String × ℚ) :=
  dedupFirstAux (cables.map (fun c => (c.voltage, c.s_mm2))) []

/-- The rows of one group. -/
def groupOf (cables : List CableRow) (k : String × ℚ) : List CableRow :=
  cables.filter (fun c => (c.voltage, c.s_mm2) == k)

/-- `lista_negra` at the end of the group loop. -/
def auditFindings (cables : List CableRow) (terms : List TermRow) : List Finding :=
  (groupKeys cables).flatMap (fun k => auditGroup terms k.1 k.2 (groupOf cables k))

/-- The statistics block of `run_audit`. -/
structure AuditResult where
  findings : List Finding
  total : Nat
  acertos : Int
  erros : Nat
  taxa : ℚ
deriving DecidableEq

/-- `audit_data.run_audit` on in-memory tables: the findings plus the
statistics it prints and writes.  `none` models the `ZeroDivisionError`
raised by `(total_acertos / total_linhas_db) * 100` when the cable
database has no rows (the division happens before the report file is
written, so nothing is produced in that case). -/
def run_audit (cables : List CableRow) (terms : List TermRow) : Option AuditResult :=
  let findings := auditFindings cables terms
  let total := cables.length
  if total = 0 then none
  else
    let erros := findings.length
    let acertos : Int := (total : Int) - (erros : Int)
    some ⟨findings, total, acertos, erros, (acertos : ℚ) / (total : ℚ) * 100⟩

/-- The two-decimal rendering `f"{x:.2f}"` of the success rate, as a
rational: round to the nearest hundredth (the rates appearing in the
claims are not ties, where binary floating point could differ). -/
def round2 (q : ℚ) : ℚ := ((q * 100 + 1 / 2).floor : ℚ) / 100

/-! ## Helper lemmas -/

theorem decDigitsAux_length_le : ∀ (fuel n k : Nat), n < 10 ^ k →
    (decDigitsAux fuel n).length ≤ k
  | 0, _, _, _ => by simp [decDigitsAux]
  | fuel + 1, n, k, h => by
    by_cases hn : n = 0
    · simp [decDigitsAux, hn]
    · match k with
      | 0 => simp at h; omega
      | k + 1 =>
        have hdiv : n / 10 < 10 ^ k := by
          rw [pow_succ, mul_comm] at h
          exact Nat.div_lt_of_lt_mul h
        have ih := decDigitsAux_length_le fuel (n / 10) k hdiv
        simp [decDigitsAux, hn]
        omega

theorem natRepr_length_le (n k : Nat) (h : n < 10 ^ k) (hk : 0 < k) :
    (natRepr n).length ≤ k := by
  unfold natRepr
  by_cases hn : n = 0
  · simpa [hn] using hk
  · have := decDigitsAux_length_le n n k h
    simpa [hn, String.length] using this

theorem zfill_length (w : Nat) (s : String) : (zfill w s).length = max w s.length := by
  unfold zfill
  split
  · omega
  · rw [String.length_append]
    have h1 : (String.mk (List.replicate (w - s.length) '0')).length = w - s.length := by
      show (List.replicate (w - s.length) '0').length = w - s.length
      exact List.length_replicate ..
    omega

theorem find_explicit_table (d : ℚ) (v cur : Nat) (db : List (String × List RangeRow))
    (tn : String) (rows : List RangeRow) (h : db.lookup tn = some rows) :
    find_cable_range_code d v cur db (some tn) = scanTable rows d := by
  unfold find_cable_range_code
  simp only [h, Option.isNone_some, Bool.false_eq_true, if_false]

theorem scanTable_append_first (pre post : List RangeRow) (a b : ℚ) (c : String) (x : ℚ)
    (hpre : ∀ r ∈ pre, rowMatches x r = false)
    (ha : a ≤ x) (hb : x ≤ b) :
    scanTable (pre ++ ⟨some a, some b, some c⟩ :: post) x = stripWs c := by
  unfold scanTable dropna
  rw [List.filter_append, List.find?_append]
  have h1 : (pre.filter
      (fun r => r.min_mm.isSome && r.max_mm.isSome && r.codigo_retorno.isSome)).find?
      (rowMatches x) = none := by
    rw [List.find?_eq_none]
    intro r hr
    simp [hpre r (List.mem_filter.mp hr).1]
  have hm : rowMatches x ⟨some a, some b, some c⟩ = true := by
    simp [rowMatches, ha, hb]
  rw [h1]
  simp [List.filter_cons, hm]

theorem mem_dedupFirstAux (a : String × ℚ) :
    ∀ (l seen : List (String × ℚ)), a ∈ dedupFirstAux l seen ↔ a ∈ l ∧ a ∉ seen := by
  intro l
  induction l with
  | nil => simp [dedupFirstAux]
  | cons b t ih =>
    intro seen
    by_cases hb : b ∈ seen
    · rw [dedupFirstAux, if_pos hb, ih]
      constructor
      · rintro ⟨h1, h2⟩
        exact ⟨List.mem_cons_of_mem _ h1, h2⟩
      · rintro ⟨h1, h2⟩
        rcases List.mem_cons.mp h1 with h | h
        · exact absurd (h ▸ hb) h2
        · exact ⟨h, h2⟩
    · rw [dedupFirstAux, if_neg hb]
      constructor
      · intro h
        rcases List.mem_cons.mp h with h | h
        · exact ⟨h ▸ List.mem_cons_self b t, h ▸ hb⟩
        · have h2 := (ih (b :: seen)).mp h
          exact ⟨List.mem_cons_of_mem _ h2.1,
            fun hs => h2.2 (List.mem_cons_of_mem _ hs)⟩
      · rintro ⟨h1, h2⟩
        by_cases hab : a = b
        · exact hab ▸ List.mem_cons_self a _
        · rcases List.mem_cons.mp h1 with h | h
          · exact absurd h hab
          · exact List.mem_cons_of_mem _ ((ih (b :: seen)).mpr
              ⟨h, fun hs => (List.mem_cons.mp hs).elim hab h2⟩)

theorem mem_groupKeys (cables : List CableRow) (k : String × ℚ) :
    k ∈ groupKeys cables ↔ k ∈ cables.map (fun c => (c.voltage, c.s_mm2)) := by
  rw [groupKeys, mem_dedupFirstAux]
  simp

/-! ## Claim theorems -/

/-- C4: the voltage normalizer applies its substring rules in fixed
priority order: any raw string containing "15" maps to the 15 kV class
even when "25" also occurs (so "15/25 kV" gives the 15 kV class); a
string containing "24" and not "15" gives the 25 kV class (so "24 kV"
does); a string matching no rule is passed through unchanged. -/
theorem norm_voltage_rule_order :
    (∀ s : String, strContains s "15" = true → _norm_voltage s = "15 kV") ∧
    _norm_voltage "15/25 kV" = "15 kV" ∧
    (∀ s : String, strContains s "15" = false → strContains s "24" = true →
      _norm_voltage s = "25 kV") ∧
    _norm_voltage "24 kV" = "25 kV" ∧
    (∀ s : String, strContains s "15" = false → strContains s "25" = false →
      strContains s "24" = false → strContains s "20" = false →
      strContains s "35" = false → _norm_voltage s = s) := by
  refine ⟨?_, by decide, ?_, by decide, ?_⟩
  · intro s h
    simp [_norm_voltage, h]
  · intro s h15 h24
    simp [_norm_voltage, h15, h24]
  · intro s h15 h25 h24 h20 h35
    simp [_norm_voltage, h15, h25, h24, h20, h35]

/-- C5: on an empty cable database the audit's group loop produces no
findings, but the statistics step divides by the row count and raises
`ZeroDivisionError` (modelled as `none`) before any report file is
written — the code does not implement the defined-coverage policy the
claim states. -/
theorem run_audit_empty_db_raises (terms : List TermRow) :
    auditFindings [] terms = [] ∧ run_audit [] terms = none :=
  ⟨rfl, rfl⟩

/-- C6 counterexample: the only assembler in the code joins with hyphens;
on the claim's input (base "15-LE200", valid fragments "T" and "03",
invalid sentinel fragment) it produces "15-LE200-T-03", not the
no-separator result "15-LE200T03" the claim requires. -/
theorem hifen_join_no_separator_cex :
    _hifen_join ["15-LE200", "T", "N/A", "03"] = "15-LE200-T-03" ∧
    "15-LE200-T-03" ≠ "15-LE200T03" := by decide

/-- C6 amended: the assembler has a single, hyphen-joined mode (there is
no configuration flag and no no-separator mode); on the claim's input it
yields "15-LE200-T-03", the invalid sentinel fragment contributing
nothing and no placeholder character appearing. -/
theorem hifen_join_hyphen_mode :
    _hifen_join ["15-LE200", "T", "N/A", "03"] = "15-LE200-T-03" ∧
    _hifen_join ["15-LE200", "T", "03"] = "15-LE200-T-03" ∧
    strContains "15-LE200-T-03" "N/A" = false := by decide

/-- C7 counterexample: the sentinel filter tests each fragment before
hyphen-stripping, so the fragment "-N/A-" passes the filter and is then
stripped to the marker itself: the assembled string "X-N/A" contains the
sentinel marker "N/A". -/
theorem hifen_join_sentinel_cex :
    _hifen_join ["X", "-N/A-"] = "X-N/A" ∧
    strContains "X-N/A" "N/A" = true := by decide

/-- C7 amended: a fragment whose text (as given, before hyphen-stripping)
uppercases to one of the sentinel markers "NA", "N/A", "ER", "ERR" is
omitted entirely from the joined result — inserting such a fragment
anywhere leaves the assembled string unchanged; fragments merely
containing a marker, or equal to one only after hyphen-stripping, can
still appear. -/
theorem hifen_join_omits_sentinel_fragments (l1 l2 : List String) (s : String)
    (hs : sentinels.contains (pyUpper s) = true) :
    _hifen_join (l1 ++ s :: l2) = _hifen_join (l1 ++ l2) := by
  unfold _hifen_join
  rw [List.filter_append, List.filter_append, List.filter_cons, hs]
  simp

theorem hifen_join_omits_sentinel_fragments_witness :
    _hifen_join ["A", "na", "B"] = _hifen_join ["A", "B"] :=
  hifen_join_omits_sentinel_fragments ["A"] ["B"] "na" (by decide)

/-- C9 counterexample: the display codes are rendered with `zfill`, which
only pads up to the target width; a catalog value with more digits is
returned unshortened, so the 200 A code is not always exactly 2 digits
(value 123 gives "123") and the 600 A lug code is not always exactly 4
digits (value 12345 gives "12345"). -/
theorem fixed_width_code_cex :
    find_conductor_code_200a "Al" 95 (some [⟨"Al", 95, 123⟩]) = "123" ∧
    (find_conductor_code_200a "Al" 95 (some [⟨"Al", 95, 123⟩])).length = 3 ∧
    find_compression_lug_600a "Al" 95 (some [⟨"Al", 95, 12345⟩]) = "12345" ∧
    (find_compression_lug_600a "Al" 95 (some [⟨"Al", 95, 12345⟩])).length = 5 := by decide

/-- C9 amended: a successful 200 A conductor-code lookup is zero-padded to
a minimum width of 2 and a successful 600 A compression-lug lookup to a
minimum width of 4; the width is exactly 2 (resp. 4) digits whenever the
underlying catalog value is below 100 (resp. 10000). -/
theorem conductor_code_padded_width (t : String) (s : Int) (rows : List CondRow) (r : CondRow)
    (hfind : rows.find? (fun q => q.tipo_condutor == t && q.secao_mm2 == s) = some r) :
    2 ≤ (find_conductor_code_200a t s (some rows)).length ∧
    4 ≤ (find_compression_lug_600a t s (some rows)).length ∧
    (r.codigo_retorno < 100 → (find_conductor_code_200a t s (some rows)).length = 2) ∧
    (r.codigo_retorno < 10000 → (find_compression_lug_600a t s (some rows)).length = 4) := by
  have h200 : find_conductor_code_200a t s (some rows) = zfill 2 (natRepr r.codigo_retorno) := by
    simp [find_conductor_code_200a, hfind]
  have h600 : find_compression_lug_600a t s (some rows) = zfill 4 (natRepr r.codigo_retorno) := by
    simp [find_compression_lug_600a, hfind]
  rw [h200, h600, zfill_length, zfill_length]
  refine ⟨Nat.le_max_left .., Nat.le_max_left .., ?_, ?_⟩
  · intro h
    have := natRepr_length_le r.codigo_retorno 2 (by norm_num; omega) (by norm_num)
    omega
  · intro h
    have := natRepr_length_le r.codigo_retorno 4 (by norm_num; omega) (by norm_num)
    omega

theorem conductor_code_padded_width_witness :
    2 ≤ (find_conductor_code_200a "Al" 95 (some [⟨"Al", 95, 7⟩])).length ∧
    4 ≤ (find_compression_lug_600a "Al" 95 (some [⟨"Al", 95, 7⟩])).length ∧
    (find_conductor_code_200a "Al" 95 (some [⟨"Al", 95, 7⟩])).length = 2 ∧
    (find_compression_lug_600a "Al" 95 (some [⟨"Al", 95, 7⟩])).length = 4 := by
  have h := conductor_code_padded_width "Al" 95 [⟨"Al", 95, 7⟩] ⟨"Al", 95, 7⟩ (by decide)
  exact ⟨h.1, h.2.1, h.2.2.1 (by decide), h.2.2.2 (by decide)⟩

/-- C1 counterexample: two overlapping rows (spans 5 and 2) both contain
the measurement 13, the span-5 row comes first in the table, and the
resolver returns the span-5 row's code "W", not the span-2 row's code
"N" — row order, not narrowest span, decides. -/
theorem resolver_narrowest_span_cex :
    find_cable_range_code 13 25 200
      [("t", [⟨some 10, some 15, some "W"⟩, ⟨some 12, some 14, some "N"⟩])] (some "t") = "W" ∧
    (10 : ℚ) ≤ 13 ∧ (13 : ℚ) ≤ 15 ∧ (12 : ℚ) ≤ 13 ∧ (13 : ℚ) ≤ 14 ∧
    (15 : ℚ) - 10 = 5 ∧ (14 : ℚ) - 12 = 2 ∧ ("W" : String) ≠ "N" := by decide

/-- C1 amended: when two or more rows of the requested range table contain
the measurement, `find_cable_range_code` returns the (stripped) return
code of the first such row in table order, whatever the rows' spans: for
two overlapping matching rows, the earlier one wins regardless of which
is narrower. -/
theorem resolver_first_match_wins (db : List (String × List RangeRow)) (tn : String)
    (v cur : Nat) (x : ℚ) (pre mid post : List RangeRow)
    (a1 b1 a2 b2 : ℚ) (c1 c2 : String)
    (hdb : db.lookup tn =
      some (pre ++ ⟨some a1, some b1, some c1⟩ :: (mid ++ ⟨some a2, some b2, some c2⟩ :: post)))
    (hpre : ∀ r ∈ pre, rowMatches x r = false)
    (h1a : a1 ≤ x) (h1b : x ≤ b1) (h2a : a2 ≤ x) (h2b : x ≤ b2) :
    find_cable_range_code x v cur db (some tn) = stripWs c1 := by
  rw [find_explicit_table x v cur db tn _ hdb]
  exact scanTable_append_first pre (mid ++ ⟨some a2, some b2, some c2⟩ :: post)
    a1 b1 c1 x hpre h1a h1b

theorem resolver_first_match_wins_witness :
    find_cable_range_code 13 25 200
      [("t", [⟨some 10, some 15, some "W"⟩, ⟨some 12, some 14, some "N"⟩])]
      (some "t") = stripWs "W" :=
  resolver_first_match_wins
    [("t", [⟨some 10, some 15, some "W"⟩, ⟨some 12, some 14, some "N"⟩])] "t"
    25 200 13 [] [] [] 10 15 12 14 "W" "N" (by decide)
    (by simp) (by decide) (by decide) (by decide) (by decide)

/-- C3: both interval ends are inclusive matches: for a row with numeric
bounds `a ≤ b` and a return code, resolving at measurement `a` and at
measurement `b` both return that row's code, provided no other matching
row is preferred (here: no row earlier in the table matches, the code's
actual preference order). -/
theorem resolver_boundaries_inclusive (db : List (String × List RangeRow)) (tn : String)
    (v cur : Nat) (pre post : List RangeRow) (a b : ℚ) (c : String)
    (hdb : db.lookup tn = some (pre ++ ⟨some a, some b, some c⟩ :: post))
    (hab : a ≤ b)
    (hlo : ∀ r ∈ pre, rowMatches a r = false)
    (hhi : ∀ r ∈ pre, rowMatches b r = false) :
    find_cable_range_code a v cur db (some tn) = stripWs c ∧
    find_cable_range_code b v cur db (some tn) = stripWs c := by
  constructor
  · rw [find_explicit_table a v cur db tn _ hdb]
    exact scanTable_append_first pre post a b c a hlo le_rfl hab
  · rw [find_explicit_table b v cur db tn _ hdb]
    exact scanTable_append_first pre post a b c b hhi hab le_rfl

theorem resolver_boundaries_inclusive_witness :
    find_cable_range_code 10 25 200 [("t", [⟨some 10, some 15, some "W"⟩])]
      (some "t") = stripWs "W" ∧
    find_cable_range_code 15 25 200 [("t", [⟨some 10, some 15, some "W"⟩])]
      (some "t") = stripWs "W" :=
  resolver_boundaries_inclusive [("t", [⟨some 10, some 15, some "W"⟩])] "t"
    25 200 [] [] 10 15 "W" (by decide) (by decide) (by simp) (by simp)

/-- C10: with voltage 15, current at least 600 and no explicit table name,
when the database lacks `opcoes_range_cabo_15kv_600a` but contains
`opcoes_range_cabo_25kv_600a`, the resolver silently scans the 25 kV /
600 A table; the `"ERR"` table-missing sentinel is returned only when the
redirected table is absent as well. -/
theorem resolver_15kv_600a_redirect (d : ℚ) (cur : Nat)
    (db : List (String × List RangeRow)) (rows : List RangeRow) (hcur : 600 ≤ cur) :
    (db.lookup "opcoes_range_cabo_15kv_600a" = none →
      db.lookup "opcoes_range_cabo_25kv_600a" = some rows →
      find_cable_range_code d 15 cur db none = scanTable rows d) ∧
    (db.lookup "opcoes_range_cabo_15kv_600a" = none →
      db.lookup "opcoes_range_cabo_25kv_600a" = none →
      find_cable_range_code d 15 cur db none = "ERR") := by
  have hname : (if 600 ≤ cur then "opcoes_range_cabo_" ++ toString (15 : Nat) ++ "kv_600a"
      else "opcoes_range_cabo_" ++ toString (15 : Nat) ++ "kv") =
      "opcoes_range_cabo_15kv_600a" := by
    rw [if_pos hcur]
    decide
  constructor
  · intro h15 h25
    unfold find_cable_range_code
    simp only [hname, h15, h25, Option.isNone_none, Option.isNone_some, if_true,
      Option.isSome_some, if_pos, Bool.false_eq_true, if_false]
    have halias : alias_redirects_lookup "opcoes_range_cabo_15kv_600a" =
        some "opcoes_range_cabo_25kv_600a" := by decide
    simp only [halias, h25, Option.isSome_some, if_true, Option.isNone_some,
      Bool.false_eq_true, if_false]
  · intro h15 h25
    unfold find_cable_range_code
    have halias : alias_redirects_lookup "opcoes_range_cabo_15kv_600a" =
        some "opcoes_range_cabo_25kv_600a" := by decide
    have halt : alternative_candidates "opcoes_range_cabo_15kv_600a" = [] := by decide
    simp only [hname, h15, h25, halias, halt, Option.isNone_none, Option.isSome_none,
      if_true, Bool.false_eq_true, if_false, List.find?_nil]

theorem resolver_15kv_600a_redirect_witness :
    find_cable_range_code 25 15 600
      [("opcoes_range_cabo_25kv_600a", [⟨some 20, some 30, some "R"⟩])] none =
      scanTable [⟨some 20, some 30, some "R"⟩] 25 ∧
    find_cable_range_code 25 15 600 [] none = "ERR" :=
  ⟨(resolver_15kv_600a_redirect 25 600
      [("opcoes_range_cabo_25kv_600a", [⟨some 20, some 30, some "R"⟩])]
      [⟨some 20, some 30, some "R"⟩] (by decide)).1 (by decide) (by decide),
   (resolver_15kv_600a_redirect 25 600 [] [] (by decide)).2 (by decide) (by decide)⟩

/-- C2: on the spec's audit scenario — three 25 kV / 95 mm² cables with
outer diameters 18, 19.5 and 25, one 25 kV termination with window
[17, 20] — the group median 19.5 selects that termination, the findings
are exactly one entry, for the 25 mm cable with reason Too Thick, and the
success rate is 200/3 %, displayed as 66.67; in general each cable of a
group with a selected termination is re-checked against that
termination's own window, Too Thin below `od_min` and Too Thick above
`od_max`. -/
theorem audit_scenario_and_per_cable_recheck :
    median [18, (39 : ℚ) / 2, 25] = (39 : ℚ) / 2 ∧
    chosenTermination [⟨"25 kV", "PN1", 17, 20⟩] "25 kV"
      [⟨"25 kV", 95, "B1", "K1", 18⟩, ⟨"25 kV", 95, "B2", "K2", (39 : ℚ) / 2⟩,
       ⟨"25 kV", 95, "B3", "K3", 25⟩] = some ⟨"25 kV", "PN1", 17, 20⟩ ∧
    run_audit
      [⟨"25 kV", 95, "B1", "K1", 18⟩, ⟨"25 kV", 95, "B2", "K2", (39 : ℚ) / 2⟩,
       ⟨"25 kV", 95, "B3", "K3", 25⟩]
      [⟨"25 kV", "PN1", 17, 20⟩] =
      some ⟨[⟨"25 kV", 95, "B3", "K3", "Too Thick"⟩], 3, 2, 1, 200 / 3⟩ ∧
    round2 (200 / 3) = 6667 / 100 ∧
    (∀ (terms : List TermRow) (v : String) (s : ℚ) (grupo : List CableRow)
      (t : TermRow) (c : CableRow),
      chosenTermination terms v grupo = some t → t.od_min ≤ t.od_max → c ∈ grupo →
      ((c.od_iso < t.od_min →
        (⟨v, s, c.brand, c.cable, "Too Thin"⟩ : Finding) ∈ auditGroup terms v s grupo) ∧
       (t.od_max < c.od_iso →
        (⟨v, s, c.brand, c.cable, "Too Thick"⟩ : Finding) ∈ auditGroup terms v s grupo))) := by
  refine ⟨by decide, by decide, by decide, by decide, ?_⟩
  intro terms v s grupo t c hsel htw hc
  constructor
  · intro hlt
    have hcond : ¬(t.od_min ≤ c.od_iso ∧ c.od_iso ≤ t.od_max) :=
      fun hcon => absurd hcon.1 (not_le.mpr hlt)
    unfold auditGroup
    rw [hsel]
    apply List.mem_filterMap.mpr
    refine ⟨c, hc, ?_⟩
    rw [if_neg hcond, if_pos hlt]
  · intro hgt
    have hcond : ¬(t.od_min ≤ c.od_iso ∧ c.od_iso ≤ t.od_max) :=
      fun hcon => absurd hcon.2 (not_le.mpr hgt)
    unfold auditGroup
    rw [hsel]
    apply List.mem_filterMap.mpr
    refine ⟨c, hc, ?_⟩
    rw [if_neg hcond, if_neg (not_lt.mpr (le_trans htw hgt.le))]

/-- C8: when the termination filter of the audit comes back empty for a
cable's group (no termination of the normalized voltage class covers the
group's median OD), that cable — like every cable of the group — appears
in the findings with reason No Termination Found, and the audit still
contributes every other group's findings (it continues rather than
aborting). -/
theorem audit_no_termination_flags_group (cables : List CableRow) (terms : List TermRow)
    (c : CableRow) (hc : c ∈ cables)
    (hnone : chosenTermination terms c.voltage (groupOf cables (c.voltage, c.s_mm2)) = none) :
    (⟨c.voltage, c.s_mm2, c.brand, c.cable, "No Termination Found"⟩ : Finding) ∈
      auditFindings cables terms ∧
    ∀ k ∈ groupKeys cables, ∀ f ∈ auditGroup terms k.1 k.2 (groupOf cables k),
      f ∈ auditFindings cables terms := by
  have hkey : (c.voltage, c.s_mm2) ∈ groupKeys cables :=
    (mem_groupKeys cables _).mpr (List.mem_map_of_mem _ hc)
  have hgrp : c ∈ groupOf cables (c.voltage, c.s_mm2) := by
    rw [groupOf, List.mem_filter]
    exact ⟨hc, by simp⟩
  constructor
  · apply List.mem_flatMap.mpr
    refine ⟨(c.voltage, c.s_mm2), hkey, ?_⟩
    unfold auditGroup
    rw [hnone]
    exact List.mem_map_of_mem _ hgrp
  · intro k hk f hf
    exact List.mem_flatMap.mpr ⟨k, hk, hf⟩

theorem audit_no_termination_flags_group_witness :
    (⟨"99 kV", 50, "B", "K", "No Termination Found"⟩ : Finding) ∈
      auditFindings [⟨"99 kV", 50, "B", "K", 10⟩] [] :=
  (audit_no_termination_flags_group [⟨"99 kV", 50, "B", "K", 10⟩] []
    ⟨"99 kV", 50, "B", "K", 10⟩ (by decide) (by decide)).1
